import Mathlib

/-!
Shallow embedding of the pest-detection / pesticide-recommendation system
(`pesticide_recommender.py`, `pest_detector.py`, `preprocess_data.py`, `app.py`).

Python strings are modelled as `List Char`; a dataframe cell that may be NaN is
modelled as `Option (List Char)` with `none` standing for NaN.  Machine floats
(softmax probabilities) are modelled as `ℚ`; the claims under study are purely
order-theoretic, so exact arithmetic is faithful.
-/

namespace PestSys

/-- Python `str.lower` (ASCII fragment), as used on queries and column values. -/
def lowerStr (s : List Char) : List Char := s.map Char.toLower

/-- Python `str.strip`: remove leading and trailing whitespace. -/
def stripStr (s : List Char) : List Char :=
  ((s.dropWhile Char.isWhitespace).reverse.dropWhile Char.isWhitespace).reverse

/-- Line 108 of `pesticide_recommender.py`: `pest_name.lower().strip()`. -/
def cleanQuery (q : List Char) : List Char := stripStr (lowerStr q)

/-- Python `str(cell)` on a dataframe cell: NaN prints as `"nan"`. -/
def pyStr : Option (List Char) → List Char
  | none => "nan".toList
  | some s => s

/-- Python `a in b` on strings: `a` occurs in `b` as a contiguous substring. -/
def isInfixB (a : List Char) : List Char → Bool
  | [] => a.isEmpty
  | c :: t => a.isPrefixOf (c :: t) || isInfixB a t

/-- One pattern character against one subject character in the modelled regex
fragment: `.` matches any character, every other character matches itself. -/
def charMatches (p c : Char) : Bool := p = '.' || p = c

/-- Match the whole pattern at the start of the subject (modelled regex
fragment: literal characters plus the `.` wildcard). -/
def matchHere : List Char → List Char → Bool
  | [], _ => true
  | _ :: _, [] => false
  | p :: ps, c :: cs => charMatches p c && matchHere ps cs

/-- Model of Python `re.search` (hence of pandas `Series.str.contains`, whose
default is `regex=True`) restricted to patterns built from literal characters
and the `.` wildcard — the fragment these claims exercise.  The empty pattern
matches every subject, exactly as in `re`. -/
def reSearch (pat : List Char) : List Char → Bool
  | [] => matchHere pat []
  | c :: cs => matchHere pat (c :: cs) || reSearch pat cs

/-- Row of the pesticide dataframe after the pest-name and pesticide columns
have been resolved (lines 110-120 of `pesticide_recommender.py`); each cell is
`none` when the dataframe holds NaN there. -/
structure Row where
  pest_name : Option (List Char)
  pesticide : Option (List Char)
  application_rate : Option (List Char)
  effectiveness : Option (List Char)
deriving DecidableEq, Repr

/-- Pesticide database: the rows plus whether the optional `application_rate`
and `effectiveness` columns exist (the `"application_rate" in row` membership
tests of lines 142-144 test the dataframe's column index). -/
structure PestDB where
  rows : List Row
  hasApplicationRate : Bool
  hasEffectiveness : Bool
deriving DecidableEq, Repr

/-- Direct-match predicate of lines 123-125:
`db[pest_col].str.lower().str.contains(pest_name_clean, na=False)` —
a NaN cell yields `False` (`na=False`), otherwise the cleaned query is applied
to the lower-cased cell as a `re` pattern. -/
def directMatch (qc : List Char) (r : Row) : Bool :=
  match r.pest_name with
  | none => false
  | some s => reSearch qc (lowerStr s)

/-- Rows selected by the direct-match path (lines 123-125). -/
def directMatches (db : PestDB) (qc : List Char) : List Row :=
  db.rows.filter (directMatch qc)

/-- Accumulator pass behind `uniqueFirst`: keep each value the first time it
is seen, skip it afterwards. -/
def uniqueFirstAux (seen : List (Option (List Char))) :
    List (Option (List Char)) → List (Option (List Char))
  | [] => []
  | x :: xs =>
    if seen.contains x then uniqueFirstAux seen xs
    else x :: uniqueFirstAux (x :: seen) xs

/-- Pandas `Series.unique`: distinct values in order of first appearance. -/
def uniqueFirst (l : List (Option (List Char))) : List (Option (List Char)) :=
  uniqueFirstAux [] l

/-- Fallback test of line 130:
`pest_name_clean in str(pest).lower() or str(pest).lower() in pest_name_clean`. -/
def bidirMatch (qc : List Char) (p : Option (List Char)) : Bool :=
  isInfixB qc (lowerStr (pyStr p)) || isInfixB (lowerStr (pyStr p)) qc

/-- Row selection of line 131, `db[db[pest_col] == pest]`: pandas equality on
object cells, where NaN compares unequal to everything (including NaN). -/
def rowPestEq (p : Option (List Char)) (r : Row) : Bool :=
  match r.pest_name, p with
  | some a, some b => a == b
  | _, _ => false

/-- Fallback loop of lines 128-132: scan the distinct pest names in order; on
the first bidirectional match take all rows equal to that value and `break`. -/
def fallbackScan (rows : List Row) (qc : List Char) :
    List (Option (List Char)) → List Row
  | [] => []
  | p :: ps =>
    if bidirMatch qc p then rows.filter (rowPestEq p) else fallbackScan rows qc ps

/-- Rows matched by `get_recommendations` for a query: the direct matches, or
the fallback scan when the direct match set is empty (lines 122-132). -/
def matchedRows (db : PestDB) (q : List Char) : List Row :=
  let qc := cleanQuery q
  let d := directMatches db qc
  if d.isEmpty then fallbackScan db.rows qc (uniqueFirst (db.rows.map Row.pest_name))
  else d

/-- Dict built for one matched row (lines 136-146): keys `"pest_name"` and
`"pesticide"` always, then `"application_rate"` / `"effectiveness"` when the
dataframe has those columns.  A Python dict is modelled as an association list
in insertion order. -/
def recFor (db : PestDB) (r : Row) : List (List Char × Option (List Char)) :=
  [("pest_name".toList, r.pest_name), ("pesticide".toList, r.pesticide)]
    ++ (if db.hasApplicationRate then [("application_rate".toList, r.application_rate)] else [])
    ++ (if db.hasEffectiveness then [("effectiveness".toList, r.effectiveness)] else [])

/-- `PesticideRecommender.get_recommendations` (lines 102-147) for a loaded
database whose pest-name and pesticide columns were resolved. -/
def get_recommendations (db : PestDB) (q : List Char) :
    List (List (List Char × Option (List Char))) :=
  (matchedRows db q).map (recFor db)

/-- Name returned when the arg-max index is absent from the class mapping
(`self.idx_to_class.get(class_idx, "Unknown")`, line 47 of `pest_detector.py`). -/
def unknownName : List Char := "Unknown".toList

/-- Fold computing `np.argmax` over index-value pairs: the first maximising
pair is kept, because the accumulator is replaced only on a strict increase. -/
def bestPair : Nat × ℚ → List (Nat × ℚ) → Nat × ℚ
  | b, [] => b
  | b, x :: xs => bestPair (if b.2 < x.2 then x else b) xs

/-- `np.argmax(predictions)` with the value at the arg-max index
(`predictions[class_idx]`); `none` on an empty vector, where numpy raises. -/
def argmaxOf : List ℚ → Option (Nat × ℚ)
  | [] => none
  | x :: xs => some (bestPair (0, x) (List.enumFrom 1 xs))

/-- `PestDetector.predict_pest` (lines 39-49 of `pest_detector.py`) after the
forward pass: from the prediction vector, take the arg-max index, look it up
in `idx_to_class` with default `"Unknown"`, and pair it with the probability at
that index. -/
def predict_pest (idxToClass : List (Nat × List Char)) (preds : List ℚ) :
    Option (List Char × ℚ) :=
  match argmaxOf preds with
  | none => none
  | some (i, v) => some ((idxToClass.lookup i).getD unknownName, v)

/-- Loaded detector state: the class mapping read from JSON and the reversed
index-to-name mapping built in `__init__` (line 24 of `pest_detector.py`). -/
structure Detector where
  class_mapping : List (List Char × Nat)
  idx_to_class : List (Nat × List Char)
deriving DecidableEq, Repr

/-- The two `FileNotFoundError` cases of `PestDetector.__init__`. -/
inductive InitError
  | modelNotFound
  | mappingNotFound
deriving DecidableEq, Repr

/-- Dict comprehension `{v: k for k, v in self.class_mapping.items()}`: later
entries overwrite earlier ones, so the association list is reversed to give
`List.lookup` (first hit) the last-wins Python semantics. -/
def reverseMapping (m : List (List Char × Nat)) : List (Nat × List Char) :=
  (m.map (fun p => (p.2, p.1))).reverse

/-- `PestDetector.__init__` (lines 11-27 of `pest_detector.py`): raise
not-found when the model file is missing, then when the mapping file is
missing, else construct the detector. -/
def pestDetectorInit (modelExists mappingExists : Bool)
    (mapping : List (List Char × Nat)) : Except InitError Detector :=
  if !modelExists then .error .modelNotFound
  else if !mappingExists then .error .mappingNotFound
  else .ok ⟨mapping, reverseMapping mapping⟩

/-- Component slots of `PestDetectionApp`, both `None` before
`initialize_components` runs. -/
structure AppState where
  detector : Option Detector
  recommender : Option PestDB
deriving DecidableEq, Repr

/-- `PestDetectionApp.initialize_components` (lines 69-77 of `app.py`): on any
exception from `PestDetector()` the handler shows an error and returns
`False`, leaving both fields `None`; otherwise both components are set and it
returns `True`.  (`PesticideRecommender()` catches its own load errors and
falls back to the default table, so it does not raise here.) -/
def init_components (modelExists mappingExists : Bool)
    (mapping : List (List Char × Nat)) (db : PestDB) : AppState × Bool :=
  match pestDetectorInit modelExists mappingExists mapping with
  | .error _ => (⟨none, none⟩, false)
  | .ok d => (⟨some d, some db⟩, true)

/-- Modelled from the spec: the shape of the value returned by
`PestDetector.detect_pest`, which `app.py` consumes but which is absent from
`pest_detector.py`.  Spec §3: "Detection result: (primary_pest, confidence,
ranked list of (class, confidence))". -/
structure DetectionResult where
  pest_detected : Bool
  primary_pest : List Char
  confidence : ℚ
  all_predictions : List (List Char × ℚ)
deriving DecidableEq, Repr

/-- Selection ranking with fuel: repeatedly extract the first maximising pair.
The fuel starts at the list length, so the whole list is ranked. -/
def rankDescAux : Nat → List (Nat × ℚ) → List (Nat × ℚ)
  | 0, _ => []
  | _ + 1, [] => []
  | n + 1, x :: xs =>
    bestPair x xs ::
      rankDescAux n ((x :: xs).eraseP (fun y => y.1 == (bestPair x xs).1))

/-- Rank index-value pairs by value, highest first. -/
def rankDesc (l : List (Nat × ℚ)) : List (Nat × ℚ) := rankDescAux l.length l

/-- Class name for an index: `idx_to_class` lookup with default `"Unknown"`. -/
def className (idxToClass : List (Nat × List Char)) (i : Nat) : List Char :=
  (idxToClass.lookup i).getD unknownName

/-- Modelled from the spec: `PestDetector.detect_pest` is called at line 146
of `app.py` (`self.detector.detect_pest(image, confidence_threshold=0.3)`) but
is missing from `pest_detector.py`.  Per spec §4 the primary prediction is the
arg-max class with its softmax probability and the ranked predictions are
ordered by probability; per the glossary the confidence threshold is "the
minimum softmax probability required to declare 'pest detected'", and the
caller reads the decision from the `pest_detected` field of this result.  The
image and forward pass are opaque here: the function consumes the model's
prediction vector for the uploaded image. -/
def detect_pest (idxToClass : List (Nat × List Char)) (preds : List ℚ)
    (threshold : ℚ) : DetectionResult :=
  match preds with
  | [] => ⟨false, unknownName, 0, []⟩
  | x :: xs =>
    let b := bestPair (0, x) (List.enumFrom 1 xs)
    { pest_detected := decide (threshold ≤ b.2)
      primary_pest := className idxToClass b.1
      confidence := b.2
      all_predictions := (rankDesc (List.enum (x :: xs))).map
        (fun p => (className idxToClass p.1, p.2)) }

/-- Branch taken by `PestDetectionApp.process_image` (lines 148-151 of
`app.py`): the app inspects only the `pest_detected` field of the detector's
result to choose between the detected and no-pest screens. -/
def process_image_branch (res : DetectionResult) : Bool := res.pest_detected

/-- `DataPreprocessor.copy_image_with_class` (lines 96-109 of
`preprocess_data.py`), restricted to its effect on `self.pest_classes`: a new
class is appended with index `len(self.pest_classes)`, a known class leaves
the mapping unchanged.  The Python dict is an association list in insertion
order. -/
def copy_image_with_class (m : List (List Char × Nat)) (c : List Char) :
    List (List Char × Nat) :=
  if (m.lookup c).isSome then m else m ++ [(c, m.length)]

/-- Density invariant of the class mapping (spec §3): the indices are the
dense integers `0, ..., k-1` in insertion order, one per discovered class. -/
def denseMapping (m : List (List Char × Nat)) : Prop :=
  m.map Prod.snd = List.range m.length ∧ (m.map Prod.fst).Nodup

/-- Claim-side predicate for the direct-match claim: the row's pest-name cell
contains the cleaned query as a case-insensitive contiguous substring. -/
def containsQuerySpec (qc : List Char) (r : Row) : Bool :=
  match r.pest_name with
  | none => false
  | some s => decide (qc <:+: lowerStr s)

/-- Row builder for concrete databases (no NaN cells). -/
def mkRow (a b c d : String) : Row :=
  ⟨some a.toList, some b.toList, some c.toList, some d.toList⟩

/-- The hardcoded fallback table built by
`PesticideRecommender.create_default_database` (lines 36-100 of
`pesticide_recommender.py`), rows in source order. -/
def defaultDatabase : PestDB :=
  ⟨[ mkRow "aphid" "Imidacloprid" "0.5ml/L" "High",
     mkRow "aphid" "Thiamethoxam" "0.3g/L" "High",
     mkRow "aphid" "Acetamiprid" "0.6ml/L" "Medium",
     mkRow "thrips" "Spinosad" "0.45ml/L" "High",
     mkRow "thrips" "Abamectin" "1.9ml/L" "Medium",
     mkRow "thrips" "Fipronil" "2ml/L" "High",
     mkRow "whitefly" "Spiromesifen" "1.5ml/L" "High",
     mkRow "whitefly" "Pyriproxyfen" "1ml/L" "Medium",
     mkRow "whitefly" "Buprofezin" "2ml/L" "Medium",
     mkRow "caterpillar" "Bacillus thuringiensis" "2g/L" "High",
     mkRow "caterpillar" "Chlorantraniliprole" "0.6ml/L" "High",
     mkRow "caterpillar" "Indoxacarb" "2ml/L" "High",
     mkRow "beetle" "Carbaryl" "2g/L" "Medium",
     mkRow "beetle" "Permethrin" "2ml/L" "High",
     mkRow "beetle" "Lambda-cyhalothrin" "1ml/L" "High",
     mkRow "mite" "Abamectin" "1.9ml/L" "High",
     mkRow "mite" "Hexythiazox" "1.5ml/L" "Medium",
     mkRow "mite" "Propargite" "2ml/L" "Medium",
     mkRow "leafhopper" "Imidacloprid" "0.5ml/L" "High",
     mkRow "leafhopper" "Deltamethrin" "1ml/L" "High",
     mkRow "leafhopper" "Cypermethrin" "1ml/L" "High",
     mkRow "scale" "Spirotetramat" "1ml/L" "Medium",
     mkRow "scale" "Buprofezin" "2ml/L" "Medium",
     mkRow "scale" "Dinotefuran" "0.6ml/L" "High",
     mkRow "borer" "Chlorantraniliprole" "0.6ml/L" "High",
     mkRow "borer" "Fipronil" "2ml/L" "High",
     mkRow "borer" "Cartap hydrochloride" "2g/L" "Medium",
     mkRow "weevil" "Imidacloprid" "0.5ml/L" "High",
     mkRow "weevil" "Chlorpyrifos" "2ml/L" "Medium",
     mkRow "weevil" "Thiamethoxam" "0.3g/L" "High",
     mkRow "armyworm" "Spinetoram" "0.45ml/L" "High",
     mkRow "armyworm" "Emamectin benzoate" "0.5g/L" "High",
     mkRow "bollworm" "Flubendiamide" "2.5ml/L" "High",
     mkRow "bollworm" "Chlorantraniliprole" "0.6ml/L" "High" ],
   true, true⟩

/-- One-row database over the pest name `"abc"`, used at concrete inputs. -/
def abcDB : PestDB := ⟨[mkRow "abc" "X" "1ml/L" "High"], true, true⟩

/-- One-row database over the pest name `"aphid"`, used at concrete inputs. -/
def aphidDB : PestDB := ⟨[mkRow "aphid" "Imidacloprid" "0.5ml/L" "High"], true, true⟩

instance (m : List (List Char × Nat)) : Decidable (denseMapping m) := by
  unfold denseMapping
  infer_instance

/-- Matching the pattern at the front of the subject coincides, for patterns
without the `.` wildcard, with the prefix relation. -/
theorem matchHere_noDot {pat : List Char} (h : '.' ∉ pat) :
    ∀ s : List Char, matchHere pat s = true ↔ pat <+: s := by
  induction pat with
  | nil => intro s; simp [matchHere]
  | cons p ps ih =>
    intro s
    have hp : p ≠ '.' := fun hc => h (hc ▸ List.mem_cons_self _ _)
    have hps : '.' ∉ ps := fun hc => h (List.mem_cons_of_mem _ hc)
    cases s with
    | nil => simp [matchHere]
    | cons c cs =>
      simp [matchHere, charMatches, hp, ih hps cs, List.cons_prefix_cons]

/-- Search of a dot-free pattern coincides with the substring relation. -/
theorem reSearch_noDot {pat : List Char} (h : '.' ∉ pat) :
    ∀ s : List Char, reSearch pat s = true ↔ pat <:+: s := by
  intro s
  induction s with
  | nil => simp [reSearch, matchHere_noDot h]
  | cons c cs ih => simp [reSearch, matchHere_noDot h, ih, List.infix_cons_iff]

/-- Python string containment is the substring relation. -/
theorem isInfixB_iff (a : List Char) : ∀ b : List Char, isInfixB a b = true ↔ a <:+: b := by
  intro b
  induction b with
  | nil => simp [isInfixB]
  | cons c cs ih => simp [isInfixB, ih, List.infix_cons_iff]

/-- The bidirectional fallback test is a bidirectional substring check. -/
theorem bidirMatch_eq (qc : List Char) (p : Option (List Char)) :
    bidirMatch qc p =
      (decide (qc <:+: lowerStr (pyStr p)) || decide (lowerStr (pyStr p) <:+: qc)) := by
  rw [Bool.eq_iff_iff]
  simp [bidirMatch, isInfixB_iff]

/-- The fallback loop with `break` computes the first distinct value passing
the bidirectional test, then selects the rows equal to it. -/
theorem fallbackScan_eq_find (rows : List Row) (qc : List Char) :
    ∀ l, fallbackScan rows qc l =
      match l.find? (bidirMatch qc) with
      | none => []
      | some p => rows.filter (rowPestEq p) := by
  intro l
  induction l with
  | nil => rfl
  | cons p ps ih =>
    cases hb : bidirMatch qc p with
    | true => simp [fallbackScan, hb]
    | false => simp [fallbackScan, hb, ih]

/-- The arg-max fold returns its accumulator or a list element. -/
theorem bestPair_eq_or_mem :
    ∀ (l : List (Nat × ℚ)) (b : Nat × ℚ), bestPair b l = b ∨ bestPair b l ∈ l := by
  intro l
  induction l with
  | nil => intro b; left; rfl
  | cons x xs ih =>
    intro b
    have hstep : bestPair b (x :: xs) = bestPair (if b.2 < x.2 then x else b) xs := rfl
    rcases ih (if b.2 < x.2 then x else b) with h | h
    · by_cases hc : b.2 < x.2
      · right
        rw [hstep, h, if_pos hc]
        exact List.mem_cons_self _ _
      · left
        rw [hstep, h, if_neg hc]
    · right
      rw [hstep]
      exact List.mem_cons_of_mem _ h

/-- The arg-max fold never drops below the accumulator's value. -/
theorem le_bestPair_self :
    ∀ (l : List (Nat × ℚ)) (b : Nat × ℚ), b.2 ≤ (bestPair b l).2 := by
  intro l
  induction l with
  | nil => intro b; exact le_refl _
  | cons x xs ih =>
    intro b
    refine le_trans ?_ (ih (if b.2 < x.2 then x else b))
    by_cases hc : b.2 < x.2
    · simp [hc, le_of_lt hc]
    · simp [hc]

/-- The arg-max fold dominates every value in the list. -/
theorem le_bestPair_mem :
    ∀ (l : List (Nat × ℚ)) (b : Nat × ℚ) (y : Nat × ℚ), y ∈ l → y.2 ≤ (bestPair b l).2 := by
  intro l
  induction l with
  | nil => intro b y hy; cases hy
  | cons x xs ih =>
    intro b y hy
    rcases List.mem_cons.mp hy with h | h
    · subst h
      show y.2 ≤ (bestPair (if b.2 < y.2 then y else b) xs).2
      refine le_trans ?_ (le_bestPair_self xs _)
      by_cases hc : b.2 < y.2
      · simp [hc]
      · simp [hc]; exact le_of_not_lt hc
    · exact ih _ y h

/-- The arg-max fold over a nonempty list stays inside the list. -/
theorem bestPair_mem_cons (x : Nat × ℚ) (xs : List (Nat × ℚ)) :
    bestPair x xs ∈ x :: xs := by
  rcases bestPair_eq_or_mem xs x with h | h
  · rw [h]; exact List.mem_cons_self _ _
  · exact List.mem_cons_of_mem _ h

/-- Indexed membership in `enumFrom` recovers the value at the index. -/
theorem enumFrom_getD :
    ∀ (l : List ℚ) (n i : Nat) (q : ℚ),
      (i, q) ∈ List.enumFrom n l → n ≤ i ∧ l.getD (i - n) 0 = q := by
  intro l
  induction l with
  | nil => intro n i q h; cases h
  | cons x xs ih =>
    intro n i q h
    rcases List.mem_cons.mp h with h | h
    · rw [Prod.mk.injEq] at h
      obtain ⟨hi, hq⟩ := h
      subst hi
      subst hq
      simp
    · obtain ⟨hle, hg⟩ := ih (n + 1) i q h
      constructor
      · omega
      · have hin : i - n = (i - (n + 1)) + 1 := by omega
        rw [hin]
        simpa using hg

/-- Selection ranking only produces elements of its input. -/
theorem rankDescAux_subset :
    ∀ (n : Nat) (l : List (Nat × ℚ)) (y : Nat × ℚ), y ∈ rankDescAux n l → y ∈ l := by
  intro n
  induction n with
  | zero => intro l y hy; cases hy
  | succ n ih =>
    intro l y hy
    cases l with
    | nil => cases hy
    | cons x xs =>
      rcases List.mem_cons.mp hy with h | h
      · subst h; exact bestPair_mem_cons x xs
      · exact List.mem_of_mem_eraseP (ih _ y h)

/-- Selection ranking is sorted by value, highest first. -/
theorem rankDescAux_pairwise :
    ∀ (n : Nat) (l : List (Nat × ℚ)),
      List.Pairwise (fun a b => b.2 ≤ a.2) (rankDescAux n l) := by
  intro n
  induction n with
  | zero => intro l; exact List.Pairwise.nil
  | succ n ih =>
    intro l
    cases l with
    | nil => exact List.Pairwise.nil
    | cons x xs =>
      refine List.Pairwise.cons ?_ (ih _)
      intro y hy
      have hmem : y ∈ x :: xs := List.mem_of_mem_eraseP (rankDescAux_subset n _ y hy)
      rcases List.mem_cons.mp hmem with h | h
      · rw [h]; exact le_bestPair_self xs x
      · exact le_bestPair_mem xs x y h

/-- Selection ranking with fuel `n` keeps `min n (length)` elements. -/
theorem rankDescAux_length :
    ∀ (n : Nat) (l : List (Nat × ℚ)), (rankDescAux n l).length = min n l.length := by
  intro n
  induction n with
  | zero => intro l; simp [rankDescAux]
  | succ n ih =>
    intro l
    cases l with
    | nil => simp [rankDescAux]
    | cons x xs =>
      have herase :
          ((x :: xs).eraseP (fun y => y.1 == (bestPair x xs).1)).length = xs.length := by
        rw [List.length_eraseP_of_mem (bestPair_mem_cons x xs) (by simp)]
        simp
      simp [rankDescAux, herase, ih, Nat.succ_min_succ]

/-- Lookup succeeds exactly on the stored keys. -/
theorem lookup_isSome_iff (m : List (List Char × Nat)) (c : List Char) :
    (m.lookup c).isSome = true ↔ c ∈ m.map Prod.fst := by
  induction m with
  | nil => simp [List.lookup]
  | cons a t ih =>
    obtain ⟨k, v⟩ := a
    by_cases hc : c = k
    · subst hc; simp [List.lookup]
    · have hb : (c == k) = false := by simp [hc]
      simp [List.lookup, hb, ih, hc]

/-- C1 (amended): for every database and every query whose cleaned form is
free of regex metacharacters (the `.` wildcard in the modelled fragment), the
direct-match path returns exactly the rows whose pest-name cell contains the
cleaned query as a case-insensitive contiguous substring. -/
theorem direct_match_is_substring_filter (db : PestDB) (q : List Char)
    (h : '.' ∉ cleanQuery q) :
    directMatches db (cleanQuery q) =
      db.rows.filter (containsQuerySpec (cleanQuery q)) := by
  unfold directMatches
  refine List.filter_congr ?_
  intro r _
  unfold directMatch containsQuerySpec
  cases r.pest_name with
  | none => rfl
  | some s =>
    rw [Bool.eq_iff_iff]
    simp [reSearch_noDot h]

/-- Witness for the amended direct-match claim at the default database and
the query `"aphid"`. -/
theorem direct_match_is_substring_filter_witness :
    '.' ∉ cleanQuery ("aphid".toList) ∧
    directMatches defaultDatabase (cleanQuery ("aphid".toList)) =
      defaultDatabase.rows.filter (containsQuerySpec (cleanQuery ("aphid".toList))) :=
  ⟨by decide, direct_match_is_substring_filter defaultDatabase ("aphid".toList) (by decide)⟩

/-- C1 counterexample: with the one-row database over the pest name `"abc"`
and the query `"a.c"`, the direct-match path selects the row even though the
cleaned query is not a substring of the pest name — pandas `str.contains`
interprets the query as a regular expression, where `.` matches any
character. -/
theorem direct_match_regex_counterexample :
    directMatches abcDB (cleanQuery ("a.c".toList)) = [mkRow "abc" "X" "1ml/L" "High"] ∧
    containsQuerySpec (cleanQuery ("a.c".toList)) (mkRow "abc" "X" "1ml/L" "High") = false := by
  constructor
  · decide
  · decide

/-- C2 (amended): a query matching no row on the direct path and no distinct
pest name in the bidirectional fallback yields the empty list (and, the model
being total on this fragment, no exception). -/
theorem no_match_returns_empty (db : PestDB) (q : List Char)
    (h1 : ∀ r ∈ db.rows, directMatch (cleanQuery q) r = false)
    (h2 : ∀ p ∈ uniqueFirst (db.rows.map Row.pest_name),
        bidirMatch (cleanQuery q) p = false) :
    get_recommendations db q = [] := by
  have hd : directMatches db (cleanQuery q) = [] := by
    rw [directMatches, List.filter_eq_nil_iff]
    intro r hr
    simp [h1 r hr]
  have hf : (uniqueFirst (db.rows.map Row.pest_name)).find?
      (bidirMatch (cleanQuery q)) = none := by
    rw [List.find?_eq_none]
    intro p hp
    simp [h2 p hp]
  unfold get_recommendations matchedRows
  simp [hd, fallbackScan_eq_find, hf]

/-- Witness for the amended no-match claim at the one-row aphid database and
the query `"zzz"`. -/
theorem no_match_returns_empty_witness :
    (∀ r ∈ aphidDB.rows, directMatch (cleanQuery ("zzz".toList)) r = false) ∧
    (∀ p ∈ uniqueFirst (aphidDB.rows.map Row.pest_name),
        bidirMatch (cleanQuery ("zzz".toList)) p = false) ∧
    get_recommendations aphidDB ("zzz".toList) = [] :=
  ⟨by decide, by decide,
    no_match_returns_empty aphidDB ("zzz".toList) (by decide) (by decide)⟩

/-- C2 counterexample: the empty query is cleaned to the empty pattern, which
`re.search` matches against every string, so `get_recommendations` returns the
whole database instead of the empty list. -/
theorem empty_query_counterexample :
    get_recommendations aphidDB [] = aphidDB.rows.map (recFor aphidDB) ∧
    get_recommendations aphidDB [] ≠ [] := by
  constructor
  · decide
  · decide

/-- C5: when the direct-match path selects nothing, the result is governed by
the first distinct pest name, in database order, that contains the cleaned
query as a substring or is contained in it: all rows whose pest-name cell
equals that name are returned, with no further ranking. -/
theorem fallback_first_distinct_match (db : PestDB) (q : List Char) (s : List Char)
    (h1 : ∀ r ∈ db.rows, directMatch (cleanQuery q) r = false)
    (h2 : (uniqueFirst (db.rows.map Row.pest_name)).find?
        (fun p => decide (cleanQuery q <:+: lowerStr (pyStr p)) ||
          decide (lowerStr (pyStr p) <:+: cleanQuery q)) = some (some s)) :
    get_recommendations db q =
      (db.rows.filter (fun r => r.pest_name == some s)).map (recFor db) := by
  have hd : directMatches db (cleanQuery q) = [] := by
    rw [directMatches, List.filter_eq_nil_iff]
    intro r hr
    simp [h1 r hr]
  have hb : (uniqueFirst (db.rows.map Row.pest_name)).find?
      (bidirMatch (cleanQuery q)) = some (some s) := by
    rw [funext (bidirMatch_eq (cleanQuery q))]
    exact h2
  unfold get_recommendations matchedRows
  simp only [hd, List.isEmpty_nil, if_true, fallbackScan_eq_find, hb]
  congr 1
  refine List.filter_congr ?_
  intro r _
  obtain ⟨pn, w, y, z⟩ := r
  cases pn <;> rfl

/-- Witness for the fallback claim: the query `"aphids on roses"` has no
direct match in the one-row aphid database, and the distinct name `"aphid"`
is contained in it. -/
theorem fallback_first_distinct_match_witness :
    (∀ r ∈ aphidDB.rows, directMatch (cleanQuery ("aphids on roses".toList)) r = false) ∧
    ((uniqueFirst (aphidDB.rows.map Row.pest_name)).find?
        (fun p => decide (cleanQuery ("aphids on roses".toList) <:+: lowerStr (pyStr p)) ||
          decide (lowerStr (pyStr p) <:+: cleanQuery ("aphids on roses".toList))) =
      some (some ("aphid".toList))) ∧
    get_recommendations aphidDB ("aphids on roses".toList) =
      (aphidDB.rows.filter (fun r => r.pest_name == some ("aphid".toList))).map
        (recFor aphidDB) :=
  ⟨by decide, by decide,
    fallback_first_distinct_match aphidDB ("aphids on roses".toList) ("aphid".toList)
      (by decide) (by decide)⟩

/-- C6: on the default database the query `"aphid"` yields three records (all
rows for the pest, so multiple records per pest are returned), and every
record carries the keys `pest_name`, `pesticide`, `application_rate` and
`effectiveness` but no `pesticide_name` key — yet the display code at line 225
of `app.py` and the spec's record shape require `pesticide_name`, so rendering
any recommendation raises a `KeyError`. -/
theorem recommendation_records_lack_pesticide_name_key :
    (get_recommendations defaultDatabase ("aphid".toList)).length = 3 ∧
    (get_recommendations defaultDatabase ("aphid".toList)).all
      (fun d => ((d.lookup ("pesticide_name".toList)).isNone &&
        (d.lookup ("pest_name".toList)).isSome &&
        (d.lookup ("pesticide".toList)).isSome &&
        (d.lookup ("application_rate".toList)).isSome &&
        (d.lookup ("effectiveness".toList)).isSome)) = true := by
  constructor
  · decide
  · decide

/-- C7: `predict_pest` returns the class name looked up at an arg-max index of
the prediction vector (default `"Unknown"`), paired with the probability stored
at that index, which dominates every probability in the vector. -/
theorem predict_pest_argmax (m : List (Nat × List Char)) (preds : List ℚ)
    (i : Nat) (v : ℚ) (h : argmaxOf preds = some (i, v)) :
    predict_pest m preds = some ((m.lookup i).getD unknownName, v) ∧
    preds.getD i 0 = v ∧
    ∀ p ∈ preds.enum, p.2 ≤ v := by
  cases preds with
  | nil => cases h
  | cons x xs =>
    have hb : bestPair (0, x) (List.enumFrom 1 xs) = (i, v) := by
      simpa [argmaxOf] using h
    refine ⟨?_, ?_, ?_⟩
    · simp [predict_pest, h]
    · have hmem : (i, v) ∈ (0, x) :: List.enumFrom 1 xs := by
        rw [← hb]
        exact bestPair_mem_cons _ _
      rcases List.mem_cons.mp hmem with hh | hh
      · rw [Prod.mk.injEq] at hh
        obtain ⟨hi, hv⟩ := hh
        subst hi
        subst hv
        rfl
      · obtain ⟨h1, h2⟩ := enumFrom_getD xs 1 i v hh
        cases i with
        | zero => omega
        | succ j => simpa using h2
    · intro p hp
      rw [List.enum_cons] at hp
      have hv : v = (bestPair (0, x) (List.enumFrom 1 xs)).2 := by rw [hb]
      rw [hv]
      rcases List.mem_cons.mp hp with hh | hh
      · rw [hh]
        exact le_bestPair_self _ _
      · exact le_bestPair_mem _ _ p hh

/-- Witness for the arg-max claim at the vector `[1/2, 3/4]` and a two-class
mapping. -/
theorem predict_pest_argmax_witness :
    argmaxOf [(1 : ℚ), 3] = some (1, (3 : ℚ)) ∧
    (predict_pest [(0, "aphid".toList), (1, "mite".toList)] [(1 : ℚ), 3] =
      some (([(0, "aphid".toList), (1, "mite".toList)].lookup 1).getD unknownName, (3 : ℚ)) ∧
    ([(1 : ℚ), 3].getD 1 0 = (3 : ℚ)) ∧
    ∀ p ∈ ([(1 : ℚ), 3]).enum, p.2 ≤ (3 : ℚ)) :=
  ⟨by decide,
    predict_pest_argmax [(0, "aphid".toList), (1, "mite".toList)] [(1 : ℚ), 3] 1
      ((3 : ℚ)) (by decide)⟩

/-- C10: when the arg-max index has no entry in the reversed class mapping,
`predict_pest` returns `"Unknown"` with the arg-max confidence — `dict.get`
with a default value cannot raise a lookup error. -/
theorem predict_pest_unknown_on_missing_index (m : List (Nat × List Char))
    (preds : List ℚ) (i : Nat) (v : ℚ)
    (h : argmaxOf preds = some (i, v)) (hm : m.lookup i = none) :
    predict_pest m preds = some (unknownName, v) := by
  simp [predict_pest, h, hm]

/-- Witness for the unknown-class claim: a mapping that lacks index 0. -/
theorem predict_pest_unknown_on_missing_index_witness :
    argmaxOf [(2 : ℚ)] = some (0, (2 : ℚ)) ∧
    ([((1 : Nat), "aphid".toList)].lookup 0 = (none : Option (List Char))) ∧
    predict_pest [((1 : Nat), "aphid".toList)] [(2 : ℚ)] =
      some (unknownName, (2 : ℚ)) :=
  ⟨by decide, by decide,
    predict_pest_unknown_on_missing_index [((1 : Nat), "aphid".toList)] [(2 : ℚ)] 0
      ((2 : ℚ)) (by decide) (by decide)⟩

/-- C3: the detection result carries the primary pest with its confidence and
a ranked list of (class, confidence) pairs; its top-3 slice (the list the app
renders) has the primary prediction at its head, holds `min 3 k` entries, is
ordered by descending probability, and the primary prediction dominates every
member — so the top-1 output is always the highest-confidence member of the
top-3 list. -/
theorem detect_pest_top3_consistent (m : List (Nat × List Char)) (preds : List ℚ)
    (t : ℚ) (h : preds ≠ []) :
    ((detect_pest m preds t).all_predictions.take 3).head? =
      some ((detect_pest m preds t).primary_pest, (detect_pest m preds t).confidence) ∧
    ((detect_pest m preds t).all_predictions.take 3).length = min 3 preds.length ∧
    List.Pairwise (fun a b => b.2 ≤ a.2) ((detect_pest m preds t).all_predictions.take 3) ∧
    ∀ p ∈ (detect_pest m preds t).all_predictions.take 3,
      p.2 ≤ (detect_pest m preds t).confidence := by
  cases preds with
  | nil => exact absurd rfl h
  | cons x xs =>
    have hall : (detect_pest m (x :: xs) t).all_predictions =
        (rankDesc (List.enum (x :: xs))).map (fun p => (className m p.1, p.2)) := rfl
    have hpw : List.Pairwise (fun a b => b.2 ≤ a.2)
        ((rankDesc (List.enum (x :: xs))).map (fun p => (className m p.1, p.2))) := by
      rw [List.pairwise_map]
      exact rankDescAux_pairwise _ _
    refine ⟨rfl, ?_, ?_, ?_⟩
    · rw [hall]
      simp [List.length_take, rankDesc, rankDescAux_length]
    · rw [hall]
      exact hpw.sublist (List.take_sublist _ _)
    · intro p hp
      rw [hall] at hp
      have hp' := List.mem_of_mem_take hp
      obtain ⟨y, hy, hyp⟩ := List.mem_map.mp hp'
      have hymem : y ∈ List.enum (x :: xs) := rankDescAux_subset _ _ y hy
      rw [List.enum_cons] at hymem
      have hp2 : p.2 = y.2 := by rw [← hyp]
      rw [hp2]
      show y.2 ≤ (detect_pest m (x :: xs) t).confidence
      rcases List.mem_cons.mp hymem with hh | hh
      · rw [hh]
        exact le_bestPair_self _ _
      · exact le_bestPair_mem _ _ y hh

/-- Witness for the top-3 consistency claim at the vector `[1/2, 1/4, 3/4, 1/8]`. -/
theorem detect_pest_top3_consistent_witness :
    ([(2 : ℚ), 1, 3, 0] ≠ ([] : List ℚ)) ∧
    (((detect_pest [] [(2 : ℚ), 1, 3, 0] ((1 : ℚ))).all_predictions.take 3).head? =
      some ((detect_pest [] [(2 : ℚ), 1, 3, 0] ((1 : ℚ))).primary_pest,
        (detect_pest [] [(2 : ℚ), 1, 3, 0] ((1 : ℚ))).confidence) ∧
    ((detect_pest [] [(2 : ℚ), 1, 3, 0] ((1 : ℚ))).all_predictions.take 3).length =
      min 3 ([(2 : ℚ), 1, 3, 0] : List ℚ).length ∧
    List.Pairwise (fun a b => b.2 ≤ a.2)
      ((detect_pest [] [(2 : ℚ), 1, 3, 0] ((1 : ℚ))).all_predictions.take 3) ∧
    ∀ p ∈ (detect_pest [] [(2 : ℚ), 1, 3, 0] ((1 : ℚ))).all_predictions.take 3,
      p.2 ≤ (detect_pest [] [(2 : ℚ), 1, 3, 0] ((1 : ℚ))).confidence) :=
  ⟨by decide,
    detect_pest_top3_consistent [] [(2 : ℚ), 1, 3, 0] ((1 : ℚ)) (by decide)⟩

/-- C4 counterexample: the detector's output for a fixed prediction vector is
not independent of the threshold it receives — raising the threshold flips the
`pest_detected` field, so the pest/no-pest decision is computed inside
`detect_pest` from the threshold `app.py` passes, not by the app itself. -/
theorem detector_output_depends_on_threshold :
    (detect_pest [] [(2 : ℚ)] ((1 : ℚ))).pest_detected = true ∧
    (detect_pest [] [(2 : ℚ)] ((3 : ℚ))).pest_detected = false := by
  constructor
  · decide
  · decide

/-- C4 (amended): the `pest_detected` decision the app branches on is exactly
the comparison `threshold ≤ confidence` carried out by the detector on the
threshold argument the app passes; `process_image` merely reads the field. -/
theorem threshold_decision_made_by_detector (m : List (Nat × List Char))
    (preds : List ℚ) (t : ℚ) (h : preds ≠ []) :
    process_image_branch (detect_pest m preds t) =
      decide (t ≤ (detect_pest m preds t).confidence) := by
  cases preds with
  | nil => exact absurd rfl h
  | cons x xs => rfl

/-- Witness for the amended threshold claim at a concrete vector. -/
theorem threshold_decision_made_by_detector_witness :
    ([(2 : ℚ)] ≠ ([] : List ℚ)) ∧
    process_image_branch (detect_pest [] [(2 : ℚ)] ((1 : ℚ))) =
      decide (((1 : ℚ)) ≤ (detect_pest [] [(2 : ℚ)] ((1 : ℚ))).confidence) :=
  ⟨by decide, threshold_decision_made_by_detector [] [(2 : ℚ)] ((1 : ℚ)) (by decide)⟩

/-- C8: the empty mapping is dense, and `copy_image_with_class` preserves
density: after `k` distinct classes have been discovered the stored indices
are exactly `0, ..., k-1` in insertion order, one per discovered class. -/
theorem class_mapping_stays_dense :
    denseMapping [] ∧
    ∀ (m : List (List Char × Nat)) (c : List Char),
      denseMapping m → denseMapping (copy_image_with_class m c) := by
  refine ⟨⟨rfl, List.nodup_nil⟩, ?_⟩
  intro m c h
  obtain ⟨hsnd, hfst⟩ := h
  unfold copy_image_with_class
  by_cases hl : (m.lookup c).isSome
  · rw [if_pos hl]
    exact ⟨hsnd, hfst⟩
  · rw [if_neg hl]
    have hc : c ∉ m.map Prod.fst := fun hmem =>
      hl ((lookup_isSome_iff m c).mpr hmem)
    constructor
    · rw [List.map_append, List.length_append]
      simp [hsnd, List.range_succ]
    · rw [List.map_append, List.nodup_append]
      refine ⟨hfst, List.nodup_singleton _, ?_⟩
      intro a ha hb
      rw [List.map_cons, List.map_nil, List.mem_singleton] at hb
      subst hb
      exact hc ha

/-- Witness for the density claim: adding a second class keeps the mapping
dense. -/
theorem class_mapping_stays_dense_witness :
    denseMapping [("aphid".toList, 0)] ∧
    denseMapping (copy_image_with_class [("aphid".toList, 0)] ("thrips".toList)) :=
  ⟨by decide,
    class_mapping_stays_dense.2 [("aphid".toList, 0)] ("thrips".toList) (by decide)⟩

/-- C9: `PestDetector` construction fails with a not-found error exactly when
the model file or the class-mapping file is missing, and the app then reports
an initialization failure and leaves the detector slot `None` rather than
partially constructed. -/
theorem detector_init_not_found_iff (modelExists mappingExists : Bool)
    (mapping : List (List Char × Nat)) (db : PestDB) :
    ((∃ e, pestDetectorInit modelExists mappingExists mapping = .error e) ↔
      (modelExists = false ∨ mappingExists = false)) ∧
    ((init_components modelExists mappingExists mapping db).1.detector = none ↔
      (modelExists = false ∨ mappingExists = false)) ∧
    ((init_components modelExists mappingExists mapping db).2 =
      (modelExists && mappingExists)) := by
  cases modelExists <;> cases mappingExists <;>
    simp [pestDetectorInit, init_components]

end PestSys
